import Mathlib

/-!
Verification of the task scheduler (`SchedulerService` in
`backend/services/scheduler_service.py`).

Shallow embedding conventions:

* An instant (`datetime`) is an integer number of seconds since an epoch
  that falls on a Monday at midnight.  `dateOf` is `.date()` (a day index),
  `timeOfDayOf` is the time-of-day part, `combine` is `datetime.combine`,
  and `weekdayOf` matches Python's `weekday()` (Monday = 0 .. Sunday = 6).
  Python floor division/modulo correspond to `Int.ediv`/`Int.emod` for the
  positive divisors used here.
* `schedule_value` is `Any` in Python; the inductive `SchedValue` covers the
  runtime types the scheduler distinguishes: a `datetime`, an `int` number
  of seconds, a `time`, a `(weekday, time)` pair, or anything else.
* Python exceptions are modelled explicitly: `_calculate_next_run` can raise
  a `TypeError` when `schedule_value` has the wrong runtime type for the
  schedule kind (`timedelta(seconds=...)`, `datetime.combine`, and tuple
  unpacking all raise on ill-typed input), so its embedding returns
  `Except String (Option Int)`.  Functions that mutate a task and may raise
  return the mutated record together with an `Option String` escaped
  exception, because Python mutations survive a raise.
-/

namespace Scheduler

/-- Seconds in a day. -/
def secPerDay : Int := 86400

/-- Seconds in a week (`timedelta(weeks=1)`). -/
def secPerWeek : Int := 604800

/-- Embeds `now.date()` as a day index (floor division, as in Python). -/
def dateOf (t : Int) : Int := t.ediv secPerDay

/-- Time-of-day part of an instant. -/
def timeOfDayOf (t : Int) : Int := t.emod secPerDay

/-- Embeds `datetime.combine(day, timeOfDay)`. -/
def combine (day tod : Int) : Int := day * secPerDay + tod

/-- Python `weekday()`: Monday = 0 .. Sunday = 6 (epoch is a Monday). -/
def weekdayOf (t : Int) : Int := (dateOf t).emod 7

/-- Runtime type of the polymorphic `schedule_value` field. -/
inductive SchedValue where
  /-- a `datetime` instant (used by `once`) -/
  | dt (d : Int)
  /-- an `int` number of seconds (used by `interval`) -/
  | seconds (n : Int)
  /-- a `time` of day (used by `daily`) -/
  | timeOfDay (t : Int)
  /-- a `(weekday, time)` pair (used by `weekly`) -/
  | dayTime (w : Int) (t : Int)
  /-- any other Python value -/
  | other
  deriving DecidableEq, Repr

/-- Handler parameters (`Dict[str, Any]`); the embedding never inspects them. -/
abbrev Params := List (String × String)

/-- The `ScheduledTask` dataclass. -/
structure ScheduledTask where
  id : String
  name : String
  action : String
  parameters : Params
  schedule_type : String
  schedule_value : SchedValue
  enabled : Bool := true
  last_run : Option Int := none
  next_run : Option Int := none
  run_count : Nat := 0
  error_count : Nat := 0
  last_error : Option String := none
  created_at : Int := 0
  deriving DecidableEq, Repr

/-- Embeds `SchedulerService._calculate_next_run`.  Here `now` is the `datetime.now()`
taken at the top of the call.  Returns `Except.error` exactly where the
Python raises a `TypeError` on an ill-typed `schedule_value`. -/
def calcNextRun (task : ScheduledTask) (now : Int) : Except String (Option Int) :=
  if !task.enabled then
    .ok none
  else if task.schedule_type = "once" then
    match task.schedule_value with
    | .dt d => if d > now ∧ task.run_count = 0 then .ok (some d) else .ok none
    | _ => .ok none
  else if task.schedule_type = "interval" then
    match task.schedule_value with
    | .seconds n =>
        match task.last_run with
        | some lr => .ok (some (lr + n))
        | none => .ok (some (now + n))
    | _ => .error "TypeError: unsupported type for timedelta seconds component"
  else if task.schedule_type = "daily" then
    match task.schedule_value with
    | .timeOfDay tt =>
        let nr := combine (dateOf now) tt
        .ok (some (if nr ≤ now then nr + secPerDay else nr))
    | _ => .error "TypeError: combine() argument must be a time instance"
  else if task.schedule_type = "weekly" then
    match task.schedule_value with
    | .dayTime w tt =>
        let daysAhead := w - weekdayOf now
        let daysAhead := if daysAhead ≤ 0 then daysAhead + 7 else daysAhead
        let nr := combine (dateOf now + daysAhead) tt
        .ok (some (if nr ≤ now then nr + secPerWeek else nr))
    | _ => .error "TypeError: cannot unpack schedule_value"
  else
    .ok none

/-- Whether `schedule_value` has the runtime type `_calculate_next_run`
expects for `schedule_type`, i.e. the calculator cannot raise. -/
def schedWellTyped (schedule_type : String) (sv : SchedValue) : Bool :=
  if schedule_type = "interval" then
    match sv with | .seconds _ => true | _ => false
  else if schedule_type = "daily" then
    match sv with | .timeOfDay _ => true | _ => false
  else if schedule_type = "weekly" then
    match sv with | .dayTime _ _ => true | _ => false
  else
    true

/-- The task record built by `create_task` (lines 73-83) before `next_run`
is filled in; `created_at` defaults to the creation instant. -/
def newTask (taskId nm act : String) (params : Params)
    (schedule_type : String) (schedule_value : SchedValue) (now : Int) :
    ScheduledTask :=
  { id := taskId
    name := nm
    action := act
    parameters := params
    schedule_type := schedule_type
    schedule_value := schedule_value
    created_at := now }

/-- What invoking the task's handler does (the handler's return value is
discarded, so only success versus a raised message matters). -/
inductive HandlerResult where
  | ok
  | raises (msg : String)
  deriving DecidableEq, Repr

/-- The `try` body of `_execute_task` (lines 135-156).  `handler` is
`self.task_handlers.get(task.action)` together with what invoking it on the
task's parameters does; `tRun` is the `datetime.now()` of line 149 and
`tCalc` the `now` inside the recompute of line 154.  Returns the task state
when the body finishes or raises (Python mutations survive a raise),
together with the raised message, if any. -/
def tryBody (handler : Option HandlerResult) (task : ScheduledTask)
    (tRun tCalc : Int) : ScheduledTask × Option String :=
  match handler with
  | none => (task, some ("Handler not found for action: " ++ task.action))
  | some (.raises msg) => (task, some msg)
  | some .ok =>
      let t1 := { task with
                    last_run := some tRun
                    run_count := task.run_count + 1
                    last_error := none }
      match calcNextRun t1 tCalc with
      | .error e => (t1, some e)
      | .ok nr => ({ t1 with next_run := nr }, none)

/-- Embeds `SchedulerService._execute_task` (lines 133-164).  Returns the task
state after the call together with the exception escaping the executor, if
any (the recompute of line 164 sits inside the `except` block but is not
itself protected, so a raise there escapes). -/
def executeTask (handler : Option HandlerResult) (task : ScheduledTask)
    (tRun tCalc : Int) : ScheduledTask × Option String :=
  match tryBody handler task tRun tCalc with
  | (t, none) => (t, none)
  | (t, some e) =>
      let t2 := { t with
                    error_count := t.error_count + 1
                    last_error := some e }
      match calcNextRun t2 tCalc with
      | .ok nr => ({ t2 with next_run := nr }, none)
      | .error e2 => (t2, some e2)

/-- The observable steps of `_execute_task`, in program order. -/
inductive ExecEvent where
  /-- the handler call of lines 143-146 -/
  | invokeHandler
  /-- step `task.last_run = datetime.now()` (line 149) -/
  | setLastRun
  /-- step `task.run_count += 1` (line 150) -/
  | incRunCount
  /-- step `task.last_error = None` (line 151) -/
  | clearLastError
  /-- step `task.next_run = self._calculate_next_run(task)` (line 154 or 164) -/
  | recomputeNextRun
  /-- step `task.error_count += 1` (line 160) -/
  | incErrorCount
  /-- step `task.last_error = str(e)` (line 161) -/
  | setLastError
  deriving DecidableEq, Repr

/-- The sequence of steps `_execute_task` performs, mirroring its control
flow (a `recomputeNextRun` event marks reaching the assignment, whether or
not the recompute itself then raises). -/
def executeTaskTrace (handler : Option HandlerResult) (task : ScheduledTask)
    (tRun tCalc : Int) : List ExecEvent :=
  match handler with
  | none => [.incErrorCount, .setLastError, .recomputeNextRun]
  | some (.raises _) =>
      [.invokeHandler, .incErrorCount, .setLastError, .recomputeNextRun]
  | some .ok =>
      let t1 := { task with
                    last_run := some tRun
                    run_count := task.run_count + 1
                    last_error := none }
      match calcNextRun t1 tCalc with
      | .ok _ =>
          [.invokeHandler, .setLastRun, .incRunCount, .clearLastError,
           .recomputeNextRun]
      | .error _ =>
          [.invokeHandler, .setLastRun, .incRunCount, .clearLastError,
           .recomputeNextRun, .incErrorCount, .setLastError,
           .recomputeNextRun]

/-- The dispatch test of the scheduler loop for one task (lines 176-179):
enabled, with a set `next_run` that is `≤ now`. -/
def isDue (task : ScheduledTask) (now : Int) : Bool :=
  task.enabled &&
    match task.next_run with
    | some nr => nr ≤ now
    | none => false

/-- The scheduler's mutable state: the task store (an insertion-ordered
map from id to task) and the registered handler actions. -/
structure SchedulerService where
  tasks : List (String × ScheduledTask) := []
  task_handlers : List String := []
  deriving Repr

/-- Embeds `self.tasks.get(task_id)`. -/
def getTask (svc : SchedulerService) (taskId : String) : Option ScheduledTask :=
  (svc.tasks.find? (fun p => p.1 == taskId)).map Prod.snd

/-- Embeds `self.tasks[task_id] = task` (insert or replace). -/
def storeTask (svc : SchedulerService) (taskId : String) (t : ScheduledTask) :
    SchedulerService :=
  if (svc.tasks.find? (fun p => p.1 == taskId)).isSome then
    { svc with
        tasks := svc.tasks.map (fun p => if p.1 == taskId then (p.1, t) else p) }
  else
    { svc with tasks := svc.tasks ++ [(taskId, t)] }

/-- Embeds `SchedulerService.create_task` (lines 47-88).  `taskId` is the fresh
uuid, `now` the current instant.  Returns the service state after the call
and either the returned id or the raised message; every raise (the
invalid-action `ValueError` of line 69, or a `TypeError` from the
`next_run` computation of line 83) happens before the store is touched,
so the state is unchanged on error. -/
def create_task (svc : SchedulerService) (taskId nm act : String)
    (params : Params) (schedule_type : String) (schedule_value : SchedValue)
    (now : Int) : SchedulerService × Except String String :=
  if act ∈ svc.task_handlers then
    let task := newTask taskId nm act params schedule_type schedule_value now
    match calcNextRun task now with
    | .error e => (svc, .error e)
    | .ok nr => (storeTask svc taskId { task with next_run := nr }, .ok taskId)
  else
    (svc, .error ("No handler registered for action: " ++ act))

/-- Embeds `SchedulerService.update_task` specialised to an `enabled=b` update, the
exact call `enable_task`/`disable_task` make (lines 226-252): look the task
up, set the field, and — since `enabled` is scheduling-relevant — recompute
`next_run`.  Returns the state, the boolean result, and the exception
escaping the recompute, if any (the `setattr` has already happened then). -/
def update_enabled (svc : SchedulerService) (taskId : String) (b : Bool)
    (now : Int) : SchedulerService × Except String Bool :=
  match getTask svc taskId with
  | none => (svc, .ok false)
  | some task =>
      let t1 := { task with enabled := b }
      match calcNextRun t1 now with
      | .ok nr => (storeTask svc taskId { t1 with next_run := nr }, .ok true)
      | .error e => (storeTask svc taskId t1, .error e)

/-- Embeds `SchedulerService.enable_task`. -/
def enable_task (svc : SchedulerService) (taskId : String) (now : Int) :
    SchedulerService × Except String Bool :=
  update_enabled svc taskId true now

/-- Embeds `SchedulerService.disable_task`. -/
def disable_task (svc : SchedulerService) (taskId : String) (now : Int) :
    SchedulerService × Except String Bool :=
  update_enabled svc taskId false now

/-! ## Helper lemmas -/

/-- Replacing the entry under a present key makes `find?` return it. -/
theorem find_replace (l : List (String × ScheduledTask)) (taskId : String)
    (t : ScheduledTask)
    (h : (l.find? (fun p => p.1 == taskId)).isSome) :
    (l.map (fun p => if p.1 == taskId then (p.1, t) else p)).find?
        (fun p => p.1 == taskId) = some (taskId, t) := by
  induction l with
  | nil => simp at h
  | cons hd tl ih =>
      by_cases hh : (hd.1 == taskId) = true
      · have heq : hd.1 = taskId := by simpa using hh
        rw [List.map_cons, if_pos hh, List.find?_cons_of_pos _ (by simpa using hh),
          heq]
      · rw [List.find?_cons_of_neg _ (by simpa using hh)] at h
        rw [List.map_cons, if_neg hh, List.find?_cons_of_neg _ (by simpa using hh)]
        exact ih h

/-- Appending a fresh entry for an absent key makes `find?` return it. -/
theorem find_append_single (l : List (String × ScheduledTask)) (taskId : String)
    (t : ScheduledTask)
    (h : l.find? (fun p => p.1 == taskId) = none) :
    (l ++ [(taskId, t)]).find? (fun p => p.1 == taskId) = some (taskId, t) := by
  induction l with
  | nil => simp [List.find?]
  | cons hd tl ih =>
      by_cases hh : hd.1 == taskId
      · simp [List.find?, hh] at h
      · simp only [List.cons_append, List.find?, hh] at h ⊢
        exact ih h

/-- After `storeTask`, looking the id up returns the stored task. -/
theorem getTask_storeTask (svc : SchedulerService) (taskId : String)
    (t : ScheduledTask) : getTask (storeTask svc taskId t) taskId = some t := by
  unfold getTask storeTask
  by_cases h : (svc.tasks.find? (fun p => p.1 == taskId)).isSome
  · simp only [h, if_true]
    rw [find_replace svc.tasks taskId t h]
    rfl
  · simp only [h, if_false, Bool.false_eq_true]
    rw [find_append_single svc.tasks taskId t
        (by rwa [Option.not_isSome_iff_eq_none] at h)]
    rfl

/-- A well-typed `schedule_value` means the calculator cannot raise. -/
theorem calcNextRun_ok_of_wellTyped (task : ScheduledTask) (now : Int)
    (h : schedWellTyped task.schedule_type task.schedule_value = true) :
    ∃ nr, calcNextRun task now = .ok nr := by
  rcases task with ⟨tid, nm, act, params, st, sv, en, lr, nr0, rc, ec, le, ca⟩
  cases en
  · exact ⟨none, rfl⟩
  · unfold schedWellTyped at h
    unfold calcNextRun
    simp only [Bool.not_true, Bool.false_eq_true, if_false]
    by_cases h1 : st = "once"
    · cases sv <;> simp [h1]
      split <;> exact ⟨_, rfl⟩
    · by_cases h2 : st = "interval"
      · simp only [h1, h2, if_true, if_false] at h ⊢
        cases sv <;> simp_all
        cases lr <;> exact ⟨_, rfl⟩
      · by_cases h3 : st = "daily"
        · simp only [h1, h2, h3, if_true, if_false] at h ⊢
          cases sv <;> simp_all
        · by_cases h4 : st = "weekly"
          · simp only [h1, h2, h3, h4, if_true, if_false] at h ⊢
            cases sv <;> simp_all
          · simp only [h1, h2, h3, h4, if_false]
            exact ⟨none, rfl⟩

/-- The calculator on an enabled `once` task with a `datetime` value:
the scheduled instant when it is strictly future and the task has never
run, otherwise nothing. -/
theorem calcNextRun_once (task : ScheduledTask) (d now : Int)
    (hen : task.enabled = true) (hst : task.schedule_type = "once")
    (hsv : task.schedule_value = .dt d) :
    calcNextRun task now =
      .ok (if d > now ∧ task.run_count = 0 then some d else none) := by
  rcases task with ⟨tid, nm, act, params, st, sv, en, lr, nr0, rc, ec, le, ca⟩
  simp only at hen hst hsv
  subst hen hst hsv
  show (if d > now ∧ rc = 0 then (Except.ok (some d) : Except String (Option Int))
        else .ok none) = _
  by_cases hc : d > now ∧ rc = 0
  · rw [if_pos hc, if_pos hc]
  · rw [if_neg hc, if_neg hc]

/-- The executor on a succeeding handler, when the recompute succeeds:
sets `last_run`, bumps `run_count`, clears `last_error`, stores the fresh
`next_run`, and lets nothing escape. -/
theorem executeTask_ok_eq (task : ScheduledTask) (tRun tCalc : Int)
    (nr : Option Int)
    (hcalc : calcNextRun { task with
                           last_run := some tRun
                           run_count := task.run_count + 1
                           last_error := none } tCalc = .ok nr) :
    executeTask (some .ok) task tRun tCalc =
      ({ task with
           last_run := some tRun
           run_count := task.run_count + 1
           last_error := none
           next_run := nr }, none) := by
  simp only [executeTask, tryBody, hcalc]

/-- The executor on a raising handler, when the recompute succeeds: bumps
`error_count`, records the message, stores the fresh `next_run`, and lets
nothing escape; `run_count` and `last_run` are untouched. -/
theorem executeTask_raises_eq (task : ScheduledTask) (msg : String)
    (tRun tCalc : Int) (nr : Option Int)
    (hcalc : calcNextRun { task with
                           error_count := task.error_count + 1
                           last_error := some msg } tCalc = .ok nr) :
    executeTask (some (.raises msg)) task tRun tCalc =
      ({ task with
           error_count := task.error_count + 1
           last_error := some msg
           next_run := nr }, none) := by
  simp only [executeTask, tryBody, hcalc]

/-! ## Claims -/

/-- An enabled `once` task whose `schedule_value` equals the instant `100`,
never run.  Used for claim C5. -/
def c5task : ScheduledTask := newTask "t5" "ping" "noop" [] "once" (.dt 100) 0

/-- C5 counterexample: for an enabled `once` task with `run_count = 0` whose
`schedule_value` is exactly the current instant, the Next-Run Calculator
returns `none`, not the instant — the comparison `schedule_value > now` is
strict, so a task scheduled for exactly now does NOT get a `next_run`. -/
theorem C5_counterexample :
    c5task.enabled = true ∧ c5task.run_count = 0 ∧
    c5task.schedule_value = .dt 100 ∧
    calcNextRun c5task 100 = .ok none ∧
    calcNextRun c5task 100 ≠ .ok (some 100) := by
  refine ⟨rfl, rfl, rfl, rfl, ?_⟩
  intro hcontra
  rw [show calcNextRun c5task 100 = Except.ok none from rfl] at hcontra
  simp at hcontra

/-- C5 amended: for an enabled, never-run `once` task, the calculator
returns the scheduled instant only when it is strictly in the future; when
`schedule_value` is at or before `now` (including exactly equal to `now`)
it returns `none`, so such a task is never scheduled. -/
theorem C5_amended (task : ScheduledTask) (d now : Int)
    (hen : task.enabled = true) (hst : task.schedule_type = "once")
    (hsv : task.schedule_value = .dt d) (hrc : task.run_count = 0) :
    (d ≤ now → calcNextRun task now = .ok none) ∧
    (now < d → calcNextRun task now = .ok (some d)) := by
  unfold calcNextRun
  rw [hst, hsv, hen]
  constructor
  · intro hle
    simp [if_neg, not_and_or]
    omega
  · intro hlt
    simp only [Bool.not_true, Bool.false_eq_true, if_false, if_true]
    rw [if_pos ⟨hlt, hrc⟩]

/-- C5 witness for the amended theorem at a concrete input. -/
theorem C5_witness :
    (¬ ((100 : Int) ≤ 99) ∧ calcNextRun c5task 99 = .ok (some 100)) ∧
    ((100 : Int) ≤ 100 ∧ calcNextRun c5task 100 = .ok none) :=
  ⟨⟨by decide, (C5_amended c5task 100 99 rfl rfl rfl rfl).2 (by decide)⟩,
   ⟨by decide, (C5_amended c5task 100 100 rfl rfl rfl rfl).1 (by decide)⟩⟩

/-- C6 confirmed: for an enabled `interval` task with value `n` seconds,
the calculator returns `last_run + n` when the task has a `last_run`, and
`now + n` when it has never run. -/
theorem C6_theorem (task : ScheduledTask) (n now : Int)
    (hen : task.enabled = true) (hst : task.schedule_type = "interval")
    (hsv : task.schedule_value = .seconds n) :
    (∀ lr, task.last_run = some lr → calcNextRun task now = .ok (some (lr + n))) ∧
    (task.last_run = none → calcNextRun task now = .ok (some (now + n))) := by
  unfold calcNextRun
  rw [hst, hsv, hen]
  constructor
  · intro lr hlr
    rw [hlr]
    simp
  · intro hlr
    rw [hlr]
    simp

/-- C6 witness: an interval-5 task that has run at 20 recomputes to 25;
one that has never run recomputes to `now + 5`. -/
theorem C6_witness :
    calcNextRun { newTask "t6" "ping" "noop" [] "interval" (.seconds 5) 0 with
                  last_run := some 20 } 100 = .ok (some 25) ∧
    calcNextRun (newTask "t6" "ping" "noop" [] "interval" (.seconds 5) 0) 100 =
      .ok (some 105) :=
  ⟨(C6_theorem _ 5 100 rfl rfl rfl).1 20 rfl,
   (C6_theorem _ 5 100 rfl rfl rfl).2 rfl⟩

/-- An enabled interval-5 task that has never run, due at 5.  Used for
claim C1. -/
def c1task : ScheduledTask :=
  { newTask "t1" "ping" "noop" [] "interval" (.seconds 5) 0 with next_run := some 5 }

/-- C1 counterexample: when the handler raises, the executor increments
`error_count` and records `last_error`, but it does NOT increment
`run_count` and does NOT update `last_run` — the failed execution does not
consume the run slot, contrary to the claim. -/
theorem C1_counterexample :
    (executeTask (some (.raises "boom")) c1task 100 100).1.error_count = 1 ∧
    (executeTask (some (.raises "boom")) c1task 100 100).1.last_error =
      some "boom" ∧
    (executeTask (some (.raises "boom")) c1task 100 100).1.run_count = 0 ∧
    (executeTask (some (.raises "boom")) c1task 100 100).1.last_run = none ∧
    (executeTask (some (.raises "boom")) c1task 100 100).1.next_run =
      some 105 :=
  ⟨rfl, rfl, rfl, rfl, rfl⟩

/-- C1 amended: for every task whose handler raises, the executor
increments `error_count` by exactly one, sets `last_error` to the raised
message, and recomputes `next_run`; it leaves `run_count` and `last_run`
unchanged (the failed execution does not consume the run slot). -/
theorem C1_amended (task : ScheduledTask) (msg : String) (tRun tCalc : Int)
    (nr : Option Int)
    (hcalc : calcNextRun { task with
                           error_count := task.error_count + 1
                           last_error := some msg } tCalc = .ok nr) :
    executeTask (some (.raises msg)) task tRun tCalc =
      ({ task with
           error_count := task.error_count + 1
           last_error := some msg
           next_run := nr }, none) := by
  simp only [executeTask, tryBody, hcalc]

/-- C1 witness: the amended behaviour at a concrete failing execution. -/
theorem C1_witness :
    executeTask (some (.raises "boom")) c1task 100 100 =
      ({ c1task with error_count := 1, last_error := some "boom",
                     next_run := some 105 }, none) :=
  C1_amended c1task "boom" 100 100 (some 105) rfl

/-- An enabled weekly task targeting (Monday, 02:00); the epoch is a
Monday midnight, so at `now = 3600` (Monday 01:00) the target time is
still ahead today.  Used for claim C2. -/
def c2task : ScheduledTask :=
  newTask "t2" "ping" "noop" [] "weekly" (.dayTime 0 7200) 0

/-- C2 counterexample: at Monday 01:00 (`now = 3600`), a weekly task for
(Monday, 02:00) — same weekday, target time strictly later than now — is
scheduled a full week ahead (612000 = day 7 at 02:00), not today at 02:00
(7200), because `days_ahead = 0` always triggers the `+= 7` branch. -/
theorem C2_counterexample :
    weekdayOf 3600 = 0 ∧ timeOfDayOf 3600 < 7200 ∧
    combine (dateOf 3600) 7200 = 7200 ∧
    calcNextRun c2task 3600 = .ok (some 612000) ∧
    (612000 : Int) ≠ 7200 :=
  ⟨rfl, by decide, rfl, rfl, by decide⟩

/-- C2 amended: for an enabled weekly task whose target weekday equals the
current instant's weekday, the calculator always returns the target time on
the same weekday one full week ahead — even when the target time-of-day is
still strictly later than the current time-of-day today. -/
theorem C2_amended (task : ScheduledTask) (w tt now : Int)
    (hen : task.enabled = true) (hst : task.schedule_type = "weekly")
    (hsv : task.schedule_value = .dayTime w tt)
    (hw : w = weekdayOf now) (_htt0 : 0 ≤ tt) (_htt1 : tt < 86400)
    (hahead : timeOfDayOf now < tt) :
    calcNextRun task now = .ok (some (combine (dateOf now + 7) tt)) := by
  unfold calcNextRun
  rw [hst, hsv, hen]
  have hstr : ((("weekly" = "once") = False) ∧ (("weekly" = "interval") = False) ∧
      (("weekly" = "daily") = False)) := by
    refine ⟨?_, ?_, ?_⟩ <;> simp
  simp only [Bool.not_true, Bool.false_eq_true, if_false, hstr.1, hstr.2.1,
    hstr.2.2, if_true]
  rw [hw]
  simp only [sub_self, if_pos (le_refl (0 : Int)), zero_add]
  have hsplit : secPerDay * dateOf now + timeOfDayOf now = now :=
    Int.ediv_add_emod now 86400
  have hnow : ¬ (combine (dateOf now + 7) tt ≤ now) := by
    unfold combine secPerDay
    unfold combine secPerDay at hsplit
    omega
  rw [if_neg hnow]

/-- C2 witness: the amended behaviour at the concrete Monday-morning
instant. -/
theorem C2_witness :
    timeOfDayOf 3600 < 7200 ∧
    calcNextRun c2task 3600 = .ok (some (combine (dateOf 3600 + 7) 7200)) :=
  ⟨by decide,
   C2_amended c2task 0 7200 3600 rfl rfl rfl (by decide) (by decide)
     (by decide) (by decide)⟩

/-- An enabled interval-5 task due at 100 (its handler may be slow).  Used
for claim C3. -/
def c3task : ScheduledTask :=
  { newTask "t3" "ping" "noop" [] "interval" (.seconds 5) 0 with next_run := some 100 }

/-- C3 counterexample: for a due task with a registered succeeding handler,
the executor's very first step is the handler invocation — the `next_run`
recompute happens only afterwards — and, since the task record is untouched
until the executor finishes, the task is still due on the next tick while a
slow handler is running, so a second concurrent dispatch is possible. -/
theorem C3_counterexample :
    executeTaskTrace (some .ok) c3task 100 100 =
      [.invokeHandler, .setLastRun, .incRunCount, .clearLastError,
       .recomputeNextRun] ∧
    (executeTaskTrace (some .ok) c3task 100 100).head? ≠
      some .recomputeNextRun ∧
    isDue c3task 100 = true ∧ isDue c3task 101 = true := by
  refine ⟨rfl, ?_, by decide, by decide⟩
  intro hcontra
  rw [show executeTaskTrace (some .ok) c3task 100 100 =
      [.invokeHandler, .setLastRun, .incRunCount, .clearLastError,
       .recomputeNextRun] from rfl] at hcontra
  simp at hcontra

/-- C3 amended: the executor recomputes `next_run` only as its very last
step — after the handler has returned or raised — and the first step when a
handler is registered is the handler invocation itself; an unchanged task
that is due stays due at every later instant, so a slow handler can be
dispatched a second time on a later tick. -/
theorem C3_amended (handler : Option HandlerResult) (task : ScheduledTask)
    (tRun tCalc : Int) :
    (executeTaskTrace handler task tRun tCalc).getLast? =
      some .recomputeNextRun ∧
    (∀ hr, handler = some hr →
      (executeTaskTrace handler task tRun tCalc).head? = some .invokeHandler) ∧
    (∀ now now', isDue task now = true → now ≤ now' → isDue task now' = true) := by
  refine ⟨?_, ?_, ?_⟩
  · cases handler with
    | none => rfl
    | some hr =>
        cases hr with
        | raises m => rfl
        | ok =>
            simp only [executeTaskTrace]
            cases calcNextRun { task with
                last_run := some tRun
                run_count := task.run_count + 1
                last_error := none } tCalc <;> rfl
  · rintro hr rfl
    cases hr with
    | raises m => rfl
    | ok =>
        simp only [executeTaskTrace]
        cases calcNextRun { task with
            last_run := some tRun
            run_count := task.run_count + 1
            last_error := none } tCalc <;> rfl
  · intro now now' hdue hle
    unfold isDue at hdue ⊢
    rw [Bool.and_eq_true] at hdue ⊢
    refine ⟨hdue.1, ?_⟩
    have h2 := hdue.2
    rcases hnr : task.next_run with _ | nr
    · rw [hnr] at h2
      simp at h2
    · rw [hnr] at h2
      simp only [decide_eq_true_eq] at h2 ⊢
      omega

/-- C3 witness: the amended behaviour at a concrete dispatch. -/
theorem C3_witness :
    (executeTaskTrace (some .ok) c3task 50 50).getLast? =
      some .recomputeNextRun ∧
    (executeTaskTrace (some .ok) c3task 50 50).head? = some .invokeHandler ∧
    isDue c3task 102 = true :=
  ⟨(C3_amended (some .ok) c3task 50 50).1,
   (C3_amended (some .ok) c3task 50 50).2.1 .ok rfl,
   (C3_amended (some .ok) c3task 50 50).2.2 100 102 (by decide) (by decide)⟩

/-- C4 confirmed: a `once` task with a future instant has `next_run` equal
to `schedule_value` before its first run; one execution attempt at or after
the scheduled instant — whether the handler succeeds or raises — leaves
`next_run` absent without any escaping exception, and every later
recomputation still yields nothing. -/
theorem C4_theorem (tid nm act : String) (params : Params)
    (d t0 tRun tCalc t' : Int) (hr : HandlerResult)
    (hfut : t0 < d) (hdue : d ≤ tCalc) (hlater : tCalc ≤ t') :
    calcNextRun (newTask tid nm act params "once" (.dt d) t0) t0 =
      .ok (some d) ∧
    (executeTask (some hr)
       { newTask tid nm act params "once" (.dt d) t0 with next_run := some d }
       tRun tCalc).1.next_run = none ∧
    (executeTask (some hr)
       { newTask tid nm act params "once" (.dt d) t0 with next_run := some d }
       tRun tCalc).2 = none ∧
    calcNextRun (executeTask (some hr)
       { newTask tid nm act params "once" (.dt d) t0 with next_run := some d }
       tRun tCalc).1 t' = .ok none := by
  refine ⟨?_, ?_⟩
  · rw [calcNextRun_once _ d t0 rfl rfl rfl]
    rw [if_pos ⟨hfut, rfl⟩]
  · cases hr with
    | ok =>
        have hcalc : calcNextRun
            { { newTask tid nm act params "once" (.dt d) t0 with
                next_run := some d } with
              last_run := some tRun
              run_count := ({ newTask tid nm act params "once" (.dt d) t0 with
                              next_run := some d } : ScheduledTask).run_count + 1
              last_error := none } tCalc = .ok none := by
          rw [calcNextRun_once _ d tCalc rfl rfl rfl]
          rw [if_neg (by rintro ⟨-, hz⟩; exact Nat.succ_ne_zero _ hz)]
        rw [executeTask_ok_eq _ tRun tCalc none hcalc]
        refine ⟨rfl, rfl, ?_⟩
        rw [calcNextRun_once _ d t' rfl rfl rfl]
        rw [if_neg (by rintro ⟨-, hz⟩; exact Nat.succ_ne_zero _ hz)]
    | raises msg =>
        have hcalc : calcNextRun
            { { newTask tid nm act params "once" (.dt d) t0 with
                next_run := some d } with
              error_count := ({ newTask tid nm act params "once" (.dt d) t0 with
                                next_run := some d } : ScheduledTask).error_count + 1
              last_error := some msg } tCalc = .ok none := by
          rw [calcNextRun_once _ d tCalc rfl rfl rfl]
          rw [if_neg (by rintro ⟨hgt, -⟩; omega)]
        rw [executeTask_raises_eq _ msg tRun tCalc none hcalc]
        refine ⟨rfl, rfl, ?_⟩
        rw [calcNextRun_once _ d t' rfl rfl rfl]
        rw [if_neg (by rintro ⟨hgt, -⟩; omega)]

/-- C4 witness: a once task for instant 100 created at 0, executed with a
raising handler at 100, then recomputed at 200. -/
theorem C4_witness :
    calcNextRun (newTask "t4" "ping" "noop" [] "once" (.dt 100) 0) 0 =
      .ok (some 100) ∧
    (executeTask (some (.raises "boom"))
       { newTask "t4" "ping" "noop" [] "once" (.dt 100) 0 with
         next_run := some 100 } 100 100).1.next_run = none ∧
    (executeTask (some (.raises "boom"))
       { newTask "t4" "ping" "noop" [] "once" (.dt 100) 0 with
         next_run := some 100 } 100 100).2 = none ∧
    calcNextRun (executeTask (some (.raises "boom"))
       { newTask "t4" "ping" "noop" [] "once" (.dt 100) 0 with
         next_run := some 100 } 100 100).1 200 = .ok none :=
  C4_theorem "t4" "ping" "noop" [] 100 0 100 100 200 (.raises "boom")
    (by decide) (by decide) (by decide)

/-- C7 confirmed: a disabled task always gets no `next_run` from the
calculator, whatever its schedule kind; `disable_task` therefore leaves the
stored task with `next_run` absent, and `enable_task` stores whatever the
calculator yields for the re-enabled task at the current instant. -/
theorem C7_theorem (task : ScheduledTask) (now : Int) (svc : SchedulerService)
    (tid : String) :
    (task.enabled = false → calcNextRun task now = .ok none) ∧
    (getTask svc tid = some task →
      (disable_task svc tid now).2 = .ok true ∧
      getTask (disable_task svc tid now).1 tid =
        some { task with enabled := false, next_run := none }) ∧
    (∀ nr, getTask svc tid = some task →
      calcNextRun { task with enabled := true } now = .ok nr →
      (enable_task svc tid now).2 = .ok true ∧
      getTask (enable_task svc tid now).1 tid =
        some { task with enabled := true, next_run := nr }) := by
  refine ⟨?_, ?_, ?_⟩
  · intro h
    unfold calcNextRun
    rw [h]
    rfl
  · intro hget
    have hc : calcNextRun { task with enabled := false } now = Except.ok none :=
      rfl
    simp only [disable_task, update_enabled, hget, hc]
    exact ⟨trivial, getTask_storeTask _ _ _⟩
  · intro nr hget hcalc
    simp only [enable_task, update_enabled, hget, hcalc]
    exact ⟨trivial, getTask_storeTask _ _ _⟩

/-- An enabled interval-5 task stored under id "id7".  Used for claim C7's
witness. -/
def c7task : ScheduledTask :=
  { newTask "id7" "ping" "noop" [] "interval" (.seconds 5) 0 with next_run := some 5 }

/-- A one-task service holding `c7task`. -/
def c7svc : SchedulerService :=
  { tasks := [("id7", c7task)], task_handlers := ["noop"] }

/-- C7 witness: the three clauses at concrete inputs. -/
theorem C7_witness :
    calcNextRun { c7task with enabled := false } 20 = .ok none ∧
    ((disable_task c7svc "id7" 20).2 = .ok true ∧
      getTask (disable_task c7svc "id7" 20).1 "id7" =
        some { c7task with enabled := false, next_run := none }) ∧
    ((enable_task c7svc "id7" 20).2 = .ok true ∧
      getTask (enable_task c7svc "id7" 20).1 "id7" =
        some { c7task with enabled := true, next_run := some 25 }) :=
  ⟨(C7_theorem { c7task with enabled := false } 20 c7svc "id7").1 rfl,
   (C7_theorem c7task 20 c7svc "id7").2.1 rfl,
   (C7_theorem c7task 20 c7svc "id7").2.2 (some 25) rfl rfl⟩

/-- C8 confirmed: `create_task` with an unregistered action raises the
invalid-action error and leaves the store untouched; with a registered
action (and a recompute that does not raise) it returns the fresh id and
the stored task already carries the computed `next_run`. -/
theorem C8_theorem (svc : SchedulerService) (tid nm act : String)
    (params : Params) (st : String) (sv : SchedValue) (now : Int) :
    (act ∉ svc.task_handlers →
      create_task svc tid nm act params st sv now =
        (svc, .error ("No handler registered for action: " ++ act))) ∧
    (∀ nr, act ∈ svc.task_handlers →
      calcNextRun (newTask tid nm act params st sv now) now = .ok nr →
      (create_task svc tid nm act params st sv now).2 = .ok tid ∧
      getTask (create_task svc tid nm act params st sv now).1 tid =
        some { newTask tid nm act params st sv now with next_run := nr }) := by
  constructor
  · intro hnot
    unfold create_task
    rw [if_neg hnot]
  · intro nr hin hcalc
    simp only [create_task, if_pos hin, hcalc]
    exact ⟨trivial, getTask_storeTask _ _ _⟩

/-- C8 witness: a rejected creation for an unregistered action and an
accepted one whose stored `next_run` is the scheduled instant. -/
theorem C8_witness :
    create_task { task_handlers := ["noop"] } "id8" "nm" "bad" [] "once"
        (.dt 50) 10 =
      ({ task_handlers := ["noop"] },
       .error "No handler registered for action: bad") ∧
    ((create_task { task_handlers := ["noop"] } "id8" "nm" "noop" [] "once"
        (.dt 50) 10).2 = .ok "id8" ∧
     getTask (create_task { task_handlers := ["noop"] } "id8" "nm" "noop" []
        "once" (.dt 50) 10).1 "id8" =
       some { newTask "id8" "nm" "noop" [] "once" (.dt 50) 10 with
              next_run := some 50 }) :=
  ⟨(C8_theorem { task_handlers := ["noop"] } "id8" "nm" "bad" [] "once"
      (.dt 50) 10).1 (by decide),
   (C8_theorem { task_handlers := ["noop"] } "id8" "nm" "noop" [] "once"
      (.dt 50) 10).2 (some 50) (by decide) rfl⟩

/-- An enabled `interval` task whose `schedule_value` is (ill-typed) a
`datetime`.  Used for claim C9. -/
def c9task : ScheduledTask := newTask "t9" "ping" "noop" [] "interval" (.dt 50) 0

/-- C9 counterexample: for an `interval` task whose `schedule_value` is a
`datetime` rather than a number of seconds, a raising handler leads the
`except` block's own recompute (line 164) to raise a `TypeError`, and that
exception escapes the executor. -/
theorem C9_counterexample :
    (executeTask (some (.raises "boom")) c9task 100 100).2 =
      some "TypeError: unsupported type for timedelta seconds component" ∧
    (executeTask (some (.raises "boom")) c9task 100 100).2 ≠ none := by
  refine ⟨rfl, ?_⟩
  intro h
  rw [show (executeTask (some (.raises "boom")) c9task 100 100).2 =
      some "TypeError: unsupported type for timedelta seconds component"
      from rfl] at h
  exact Option.noConfusion h

/-- C9 amended: whenever the task's `schedule_value` has the runtime type
its `schedule_type` expects (so the recompute cannot raise), no exception
escapes the executor, for every handler behaviour — handler raises, handler
succeeds, or no handler registered; but an ill-typed `schedule_value` makes
the recompute inside the failure path raise, and that raise escapes. -/
theorem C9_amended (handler : Option HandlerResult) (task : ScheduledTask)
    (tRun tCalc : Int)
    (hwt : schedWellTyped task.schedule_type task.schedule_value = true) :
    (executeTask handler task tRun tCalc).2 = none := by
  cases handler with
  | none =>
      obtain ⟨nr, hnr⟩ := calcNextRun_ok_of_wellTyped
        { task with
            error_count := task.error_count + 1
            last_error := some ("Handler not found for action: " ++ task.action) }
        tCalc hwt
      simp only [executeTask, tryBody, hnr]
  | some hr =>
      cases hr with
      | raises msg =>
          obtain ⟨nr, hnr⟩ := calcNextRun_ok_of_wellTyped
            { task with
                error_count := task.error_count + 1
                last_error := some msg } tCalc hwt
          simp only [executeTask, tryBody, hnr]
      | ok =>
          obtain ⟨nr, hnr⟩ := calcNextRun_ok_of_wellTyped
            { task with
                last_run := some tRun
                run_count := task.run_count + 1
                last_error := none } tCalc hwt
          simp only [executeTask, tryBody, hnr]

/-- C9 witness: a well-typed interval task with a raising handler lets
nothing escape. -/
theorem C9_witness :
    (executeTask (some (.raises "boom"))
       (newTask "t9b" "ping" "noop" [] "interval" (.seconds 5) 0) 100 100).2 =
      none :=
  C9_amended (some (.raises "boom"))
    (newTask "t9b" "ping" "noop" [] "interval" (.seconds 5) 0) 100 100 rfl

/-- C10 confirmed: `create_task` with a registered action but a
`schedule_type` outside the four known kinds — or a `once` task whose
`schedule_value` is not a `datetime` — succeeds, stores the task with
`next_run` absent, and such a task is never due. -/
theorem C10_theorem (svc : SchedulerService) (tid nm act : String)
    (params : Params) (st : String) (sv : SchedValue) (now : Int)
    (hreg : act ∈ svc.task_handlers)
    (hodd : (st ≠ "once" ∧ st ≠ "interval" ∧ st ≠ "daily" ∧ st ≠ "weekly") ∨
            (st = "once" ∧ ∀ d, sv ≠ .dt d)) :
    (create_task svc tid nm act params st sv now).2 = .ok tid ∧
    getTask (create_task svc tid nm act params st sv now).1 tid =
      some { newTask tid nm act params st sv now with next_run := none } ∧
    ∀ t, isDue { newTask tid nm act params st sv now with next_run := none } t =
      false := by
  have hcalc : calcNextRun (newTask tid nm act params st sv now) now =
      .ok none := by
    rcases hodd with ⟨h1, h2, h3, h4⟩ | ⟨h1, h2⟩
    · unfold calcNextRun newTask
      simp only
      rw [if_neg h1, if_neg h2, if_neg h3, if_neg h4]
      rfl
    · subst h1
      cases sv with
      | dt d => exact absurd rfl (h2 d)
      | seconds n => rfl
      | timeOfDay t => rfl
      | dayTime w t => rfl
      | other => rfl
  simp only [create_task, if_pos hreg, hcalc]
  exact ⟨trivial, getTask_storeTask _ _ _, fun t => rfl⟩

/-- C10 witness: an unknown schedule kind "cron" is accepted and stored
unscheduled. -/
theorem C10_witness :
    (create_task { task_handlers := ["noop"] } "idX" "nm" "noop" [] "cron"
        .other 10).2 = .ok "idX" ∧
    getTask (create_task { task_handlers := ["noop"] } "idX" "nm" "noop" []
        "cron" .other 10).1 "idX" =
      some { newTask "idX" "nm" "noop" [] "cron" .other 10 with
             next_run := none } ∧
    ∀ t, isDue { newTask "idX" "nm" "noop" [] "cron" .other 10 with
             next_run := none } t = false :=
  C10_theorem { task_handlers := ["noop"] } "idX" "nm" "noop" [] "cron" .other
    10 (by decide) (Or.inl ⟨by decide, by decide, by decide, by decide⟩)

end Scheduler
